import Mathlib

/-!
# Verification of the chat-analytics core (`chat/utils.py`, `chat/views.py`)

Shallow embedding of the quality-score, theme-extraction, insights-aggregation,
feedback-submission and message-posting logic of the chat backend, together
with proofs of the specification claims about them.

Conventions of the embedding:
* Django model rows become plain structures; the database becomes a `Store`
  holding the three tables as lists (in default table order).
* Python `float` arithmetic is modelled by `ℚ`; `round(x, 2)` is modelled by
  `round2` (round to the nearest multiple of 1/100; Python's float
  representation and banker's tie-breaking are abstracted away — no claim
  below depends on the behaviour at exact ties).
* Strings are treated as sequences of characters; ASCII text is modelled
  exactly (the notes, titles and regexes of this code are ASCII-oriented).
* The fallible LLM generator becomes an explicit function argument of type
  `String → Except String String`.
-/

/-- `round(x, 2)` of Python on the rational model: nearest multiple of 1/100. -/
def round2 (q : ℚ) : ℚ := (round (q * 100) : ℤ) / 100

/-! ## Data model (`chat/models.py` rows, fields as in migration 0002) -/

/-- The `role` field of a `Message` (`ROLE_USER` / `ROLE_AI`). -/
inductive Role where
  | user
  | ai
deriving DecidableEq, Repr

/-- A `Conversation` row (identity and optional title; timestamps are
irrelevant to every claim and omitted). -/
structure Conversation where
  id : Nat
  title : Option String
deriving DecidableEq, Repr

/-- A `Message` row: identity, owning conversation (foreign key), role, text
body and per-conversation sequence number. -/
structure Message where
  id : Nat
  conversation : Nat
  role : Role
  text : String
  sequence : Nat
deriving DecidableEq, Repr

/-- A `Feedback` row: owning message (one-to-one foreign key in the schema,
modelled as a plain key so that the code's uniqueness discipline is itself
provable), boolean rating and optional free-text note. -/
structure Feedback where
  message : Nat
  rating : Bool
  note : Option String
deriving DecidableEq, Repr

/-- The relational store: the three tables. -/
structure Store where
  conversations : List Conversation
  messages : List Message
  feedbacks : List Feedback
deriving DecidableEq, Repr

/-! ## `chat/utils.py` — quality scoring -/

/-- `conversation.messages.filter(role=Message.ROLE_AI)` (utils.py line 50). -/
def ai_messages (s : Store) (c : Conversation) : List Message :=
  s.messages.filter (fun m => m.conversation = c.id ∧ m.role = Role.ai)

/-- `total_ai = ai_messages.count()` (utils.py line 51). -/
def total_ai (s : Store) (c : Conversation) : Nat :=
  (ai_messages s c).length

/-- `Feedback.objects.filter(message__in=ai_messages).count()` (utils.py line 55). -/
def feedback_count (s : Store) (c : Conversation) : Nat :=
  (s.feedbacks.filter (fun f => (ai_messages s c).any (fun m => m.id = f.message))).length

/-- `Feedback.objects.filter(message__in=ai_messages, rating=True).count()`
(utils.py line 59). -/
def positive_count (s : Store) (c : Conversation) : Nat :=
  (s.feedbacks.filter
    (fun f => (ai_messages s c).any (fun m => m.id = f.message) ∧ f.rating = true)).length

/-- `calculate_quality_score` (utils.py lines 41-62): `None` when there are no
AI messages or no feedback on them, otherwise
`round((positive_ratio * 0.7 + feedback_rate * 0.3) * 100, 2)`. -/
def calculate_quality_score (s : Store) (c : Conversation) : Option ℚ :=
  if total_ai s c = 0 then none
  else if feedback_count s c = 0 then none
  else
    let positive_ratio : ℚ := (positive_count s c : ℚ) / (feedback_count s c : ℚ)
    let feedback_rate : ℚ := (feedback_count s c : ℚ) / (total_ai s c : ℚ)
    some (round2 ((positive_ratio * (7/10) + feedback_rate * (3/10)) * 100))

/-! ## `chat/utils.py` — theme extraction -/

/-- `STOP_WORDS` (utils.py lines 14-25), verbatim (set membership, so the
duplicated literals of the Python set are harmless). -/
def STOP_WORDS : List String :=
  ["the", "a", "an", "and", "or", "but", "in", "on", "at", "to", "for", "of", "with", "by",
   "is", "was", "are", "were", "be", "been", "being", "have", "has", "had", "do", "does", "did",
   "this", "that", "these", "those", "i", "you", "he", "she", "it", "we", "they",
   "not", "no", "yes", "very", "too", "so", "just", "only", "also", "more", "most",
   "what", "which", "who", "when", "where", "why", "how", "can", "could", "should", "would",
   "from", "about", "into", "through", "during", "before", "after", "above", "below", "up", "down",
   "out", "off", "over", "under", "again", "further", "then", "once", "here", "there", "when",
   "where", "why", "how", "all", "each", "both", "few", "more", "most", "other", "some", "such",
   "no", "nor", "not", "only", "own", "same", "so", "than", "too", "very", "s", "t", "can",
   "will", "just", "don", "should", "now", "response", "answer", "helpful", "not", "wasn", "didn"]

/-- ASCII lower-case letter (the character class `[a-z]` of the regex). -/
def isAz (c : Char) : Bool := 'a' ≤ c && c ≤ 'z'

/-- A regex word character (`\w` over the ASCII range: letters, digits,
underscore); `\b` of `re` matches exactly between a word and a non-word
character. -/
def isWordChar (c : Char) : Bool :=
  ('a' ≤ c && c ≤ 'z') || ('A' ≤ c && c ≤ 'Z') || ('0' ≤ c && c ≤ '9') || c = '_'

/-- ASCII case folding: `str.lower()` restricted to ASCII text. -/
def lowerChar (c : Char) : Char :=
  if 'A' ≤ c && c ≤ 'Z' then Char.ofNat (c.toNat + 32) else c

/-- `note.lower()` on ASCII text. -/
def lowerStr (s : String) : String := String.mk (s.data.map lowerChar)

/-- The scan of `re.findall(r'\b[a-z]+\b', text)`: walk the characters
tracking whether the previous character was a word character; a match starts
at a position preceded by a non-word character (a `\b`), consists of the
maximal run of `[a-z]` letters from there, and succeeds only when that run is
followed by a non-word character or the end of the string (the closing `\b`);
the regex engine's backtracking inside `[a-z]+` can never succeed earlier
because every internal position is a word-word junction. -/
def findallAux : Bool → List Char → List (List Char)
  | _, [] => []
  | prevWord, c :: cs =>
    if !prevWord && isAz c
        && ((cs.dropWhile isAz).head?.all (fun d => !isWordChar d)) then
      (c :: cs.takeWhile isAz) :: findallAux (isWordChar c) cs
    else
      findallAux (isWordChar c) cs

/-- `re.findall(r'\b[a-z]+\b', note.lower())` (utils.py line 70). -/
def findall_words (note : String) : List String :=
  (findallAux false (lowerStr note).data).map (fun r => String.mk r)

/-- The per-word filter of utils.py line 71:
`w not in STOP_WORDS and len(w) > 3`. -/
def keepWord (w : String) : Bool := !(STOP_WORDS.contains w) && w.length > 3

/-- One iteration of the loop of utils.py lines 68-72 restricted to a single
note: the candidate words that survive the stop-word/length filter (an absent
or empty note contributes nothing, by the `if note:` guard). -/
def noteWords (note : Option String) : List String :=
  match note with
  | none => []
  | some text => if text = "" then [] else (findall_words text).filter keepWord

/-- `Counter.update` for a single word: increment the entry in place if the
key is present, otherwise append a fresh entry (a `Counter` is an
insertion-ordered dict). -/
def counterAdd (tbl : List (String × Nat)) (w : String) : List (String × Nat) :=
  if tbl.any (fun p => p.1 = w) then
    tbl.map (fun p => if p.1 = w then (p.1, p.2 + 1) else p)
  else
    tbl ++ [(w, 1)]

/-- The frequency table of utils.py lines 67-72: scan the notes in input
order, updating the insertion-ordered counter with each note's surviving
words. -/
def themeTable (notes : List (Option String)) : List (String × Nat) :=
  notes.foldl (fun tbl note => (noteWords note).foldl counterAdd tbl) []

/-- The sort key of `Counter.most_common`: descending count; `a ≼ b` holds
when `a` may stay before `b`. -/
def countGE (a b : String × Nat) : Prop := b.2 ≤ a.2

instance : DecidableRel countGE := fun a b => Nat.decLe b.2 a.2

instance : IsTotal (String × Nat) countGE :=
  ⟨fun a b => by unfold countGE; exact Nat.le_total b.2 a.2⟩

instance : IsTrans (String × Nat) countGE :=
  ⟨fun _ _ _ hab hbc => by unfold countGE at *; exact Nat.le_trans hbc hab⟩

/-- `Counter.most_common(n)`: the stable descending sort of the table by
count (`heapq.nlargest` is documented and implemented as the stable
`sorted(..., reverse=True)[:n]`), truncated to `n` entries; stable sorts are
extensionally unique, so the insertion sort is a faithful model. -/
def most_common (tbl : List (String × Nat)) (n : Nat) : List (String × Nat) :=
  (tbl.insertionSort countGE).take n

/-- `extract_feedback_themes` (utils.py lines 65-74); the `{"word": w,
"count": c}` dicts become pairs. -/
def extract_feedback_themes (notes : List (Option String)) (top_n : Nat) :
    List (String × Nat) :=
  most_common (themeTable notes) top_n

/-! ## Spec-side tokenizer (for claim C3 only)

The specification describes the candidate words as the maximal `[a-z]` runs
of the lower-cased note with *every* non-letter character acting as a
separator.  The definitions below follow the spec's words, to be compared
with `findall_words` above. -/

/-- Maximal runs of characters satisfying `p` (a generic splitter). -/
def runsBy (p : Char → Bool) : List Char → List (List Char)
  | [] => []
  | c :: cs =>
    if p c then
      match cs.head? with
      | some d =>
        if p d then
          match runsBy p cs with
          | r :: rs => (c :: r) :: rs
          | [] => [[c]]
        else [c] :: runsBy p cs
      | none => [[c]]
    else runsBy p cs

/-- Modelled from the spec: "lower-case it, extract maximal runs of the ASCII
letters a-z as candidate words ... non-letter characters, including digits
and punctuation, act as separators". -/
def specCandidateWords (note : String) : List String :=
  (runsBy isAz (lowerStr note).data).map (fun r => String.mk r)

/-- The maximal word-character runs of a text (used to characterise what the
regex scan actually returns). -/
def wordRuns (cs : List Char) : List (List Char) := runsBy isWordChar cs

/-! ## `chat/views.py` — `InsightsView.get` (the insights aggregator) -/

/-- `Conversation.objects.count()` (views.py line 159). -/
def totalConversations (s : Store) : Nat := s.conversations.length

/-- `Message.objects.count()` (views.py line 160). -/
def totalMessages (s : Store) : Nat := s.messages.length

/-- `Message.objects.filter(role=ROLE_USER).count()` (views.py line 161). -/
def totalUserMessages (s : Store) : Nat :=
  (s.messages.filter (fun m => m.role = Role.user)).length

/-- `Message.objects.filter(role=ROLE_AI).count()` (views.py line 162). -/
def totalAIMessages (s : Store) : Nat :=
  (s.messages.filter (fun m => m.role = Role.ai)).length

/-- `Feedback.objects.count()` (views.py line 165). -/
def totalFeedback (s : Store) : Nat := s.feedbacks.length

/-- `Feedback.objects.filter(rating=True).count()` (views.py line 166). -/
def positiveFeedback (s : Store) : Nat :=
  (s.feedbacks.filter (fun f => f.rating = true)).length

/-- `Feedback.objects.filter(rating=False).count()` (views.py line 167). -/
def negativeFeedback (s : Store) : Nat :=
  (s.feedbacks.filter (fun f => f.rating = false)).length

/-- `satisfaction_rate` before rounding (views.py line 170): percentage of
positive feedback, `0` when there is no feedback. -/
def satisfaction_rate (s : Store) : ℚ :=
  if 0 < totalFeedback s then (positiveFeedback s : ℚ) / (totalFeedback s : ℚ) * 100 else 0

/-- `feedback_rate` before rounding (views.py line 173): feedback per AI
message as a percentage, `0` when there are no AI messages. -/
def feedback_rate (s : Store) : ℚ :=
  if 0 < totalAIMessages s then (totalFeedback s : ℚ) / (totalAIMessages s : ℚ) * 100 else 0

/-- `Feedback.objects.exclude(note__isnull=True).exclude(note="").values_list('note', flat=True)`
(views.py line 176). -/
def insights_notes (s : Store) : List (Option String) :=
  (s.feedbacks.filter (fun f => f.note ≠ none ∧ f.note ≠ some "")).map (fun f => f.note)

/-- One element of `conversations_with_scores` (views.py lines 184-190). -/
structure ConversationScore where
  id : Nat
  title : Option String
  quality_score : Option ℚ
  total_messages : Nat
  feedback_count : Nat
deriving DecidableEq, Repr

/-- The per-conversation loop of views.py lines 180-190. -/
def conversations_with_scores (s : Store) : List ConversationScore :=
  s.conversations.map (fun c =>
    { id := c.id
      title := c.title
      quality_score := calculate_quality_score s c
      total_messages := (s.messages.filter (fun m => m.conversation = c.id)).length
      feedback_count := feedback_count s c })

/-- The list of defined quality scores (views.py line 193). -/
def quality_scores_list (s : Store) : List ℚ :=
  (conversations_with_scores s).filterMap (fun e => e.quality_score)

/-- The `quality_distribution` dict (views.py lines 194-199). -/
structure QualityDistribution where
  excellent : Nat
  good : Nat
  fair : Nat
  poor : Nat
deriving DecidableEq, Repr

/-- Bucketing of the defined scores (views.py lines 194-199). -/
def quality_distribution (s : Store) : QualityDistribution :=
  { excellent := ((quality_scores_list s).filter (fun q => 80 ≤ q)).length
    good := ((quality_scores_list s).filter (fun q => 60 ≤ q ∧ q < 80)).length
    fair := ((quality_scores_list s).filter (fun q => 40 ≤ q ∧ q < 60)).length
    poor := ((quality_scores_list s).filter (fun q => q < 40)).length }

/-- `avg_quality_score` (views.py line 200): mean of the defined scores
rounded to two decimals, `None` when none are defined. -/
def avg_quality_score (s : Store) : Option ℚ :=
  if quality_scores_list s = [] then none
  else some (round2 ((quality_scores_list s).sum / ((quality_scores_list s).length : ℚ)))

/-- Rendering of `avg_quality_score if avg_quality_score else 'N/A'` inside
the prompt (views.py line 219) — note the Python truthiness: a `0.0` average
also renders as `N/A`. -/
def renderAvg : Option ℚ → String
  | some a => if a = 0 then "N/A" else toString a
  | none => "N/A"

/-- The fixed-template summary prompt of views.py lines 206-224, with the
statistics spliced in (the decimal formatting of the two `:.1f` float
interpolations is abstracted by the exact rational rendering; no claim
depends on the prompt text). -/
def insightsPrompt (s : Store) : String :=
  "Provide a brief 1-2 sentence summary of these chat analytics insights. Be concise and highlight key trends.\n\n" ++
  "Usage Statistics:\n" ++
  "- Total Conversations: " ++ toString (totalConversations s) ++ "\n" ++
  "- Total Messages: " ++ toString (totalMessages s) ++
    " (User: " ++ toString (totalUserMessages s) ++
    ", AI: " ++ toString (totalAIMessages s) ++ ")\n\n" ++
  "Feedback Statistics:\n" ++
  "- Total Feedback: " ++ toString (totalFeedback s) ++ "\n" ++
  "- Satisfaction Rate: " ++ toString (satisfaction_rate s) ++ "%\n" ++
  "- Feedback Rate: " ++ toString (feedback_rate s) ++ "%\n" ++
  "- Positive: " ++ toString (positiveFeedback s) ++
    ", Negative: " ++ toString (negativeFeedback s) ++ "\n\n" ++
  "Quality Scores:\n" ++
  "- Average Quality Score: " ++ renderAvg (avg_quality_score s) ++ "\n" ++
  "- Distribution: Excellent (" ++ toString (quality_distribution s).excellent ++
    "), Good (" ++ toString (quality_distribution s).good ++
    "), Fair (" ++ toString (quality_distribution s).fair ++
    "), Poor (" ++ toString (quality_distribution s).poor ++ ")\n\n" ++
  "Top Feedback Themes: " ++
    (let themes := extract_feedback_themes (insights_notes s) 10
     if themes = [] then "None yet"
     else String.intercalate ", " ((themes.take 5).map (fun t => t.1))) ++ "\n\n" ++
  "Provide a brief, actionable summary in 1-2 sentences."

/-- The response payload of `InsightsView.get` (views.py lines 231-252),
flattened; field names follow the JSON contract. -/
structure InsightsReport where
  total_conversations : Nat
  total_messages : Nat
  total_user_messages : Nat
  total_ai_messages : Nat
  total_feedback : Nat
  positive_feedback : Nat
  negative_feedback : Nat
  satisfaction_rate : ℚ
  feedback_rate : ℚ
  themes : List (String × Nat)
  average : Option ℚ
  distribution : QualityDistribution
  conversations : List ConversationScore
  summary : Option String
deriving DecidableEq, Repr

/-- `InsightsView.get` (views.py lines 152-252).  The LLM client becomes the
explicit `gen` argument; `GeminiServiceError` becomes `Except.error`.  The
second component counts how many times the generator is invoked during the
build (the call on line 226 is the only one).  Total by construction: the
"never raises" halves of the claims are the totality of this function
together with the stated field values. -/
def buildInsights (s : Store) (include_summary : Bool)
    (gen : String → Except String String) : InsightsReport × Nat :=
  let summaryAndCalls : Option String × Nat :=
    if include_summary then
      match gen (insightsPrompt s) with
      | .ok text => (some text, 1)
      | .error _ => (none, 1)
    else (none, 0)
  ({ total_conversations := totalConversations s
     total_messages := totalMessages s
     total_user_messages := totalUserMessages s
     total_ai_messages := totalAIMessages s
     total_feedback := totalFeedback s
     positive_feedback := positiveFeedback s
     negative_feedback := negativeFeedback s
     satisfaction_rate := round2 (satisfaction_rate s)
     feedback_rate := round2 (feedback_rate s)
     themes := extract_feedback_themes (insights_notes s) 10
     average := avg_quality_score s
     distribution := quality_distribution s
     conversations := (conversations_with_scores s).take 20
     summary := summaryAndCalls.1 },
   summaryAndCalls.2)

/-! ## `chat/views.py` — `MessageFeedbackView.post` (feedback submission) -/

/-- Outcome of a feedback submission, mirroring the HTTP responses: 404 for
an unknown message, 400 for a non-AI message, 201 for a creation, 200 for an
in-place update. -/
inductive PostFeedbackResult where
  | messageMissing
  | badRole
  | created
  | updated
deriving DecidableEq, Repr

/-- The in-place update arm of the upsert (views.py lines 130-135): set the
rating; `note or ""` stores the given note unchanged, an absent note leaves
the stored note as it was. -/
def updateFeedback (s : Store) (message_id : Nat) (rating : Bool)
    (note : Option String) : Store :=
  { s with feedbacks := s.feedbacks.map (fun f =>
      if f.message = message_id then
        { f with rating := rating,
                 note := match note with
                         | some n => some n
                         | none => f.note }
      else f) }

/-- The `create` arm of the `get_or_create` (views.py lines 123-129): append
a fresh row for the message; an absent or null note is stored as `""`. -/
def createFeedback (s : Store) (message_id : Nat) (rating : Bool)
    (note : Option String) : Store :=
  { s with feedbacks := s.feedbacks ++
      [{ message := message_id, rating := rating,
         note := some (match note with | some n => n | none => "") }] }

/-- `MessageFeedbackView.post` (views.py lines 108-140): look the message up,
reject feedback on non-AI messages, then `get_or_create` keyed by the message
followed by an in-place update of the existing row.  The store is returned
unchanged on both error outcomes. -/
def post_feedback (s : Store) (message_id : Nat) (rating : Bool)
    (note : Option String) : PostFeedbackResult × Store :=
  match s.messages.find? (fun m => m.id = message_id) with
  | none => (.messageMissing, s)
  | some m =>
    if m.role ≠ Role.ai then (.badRole, s)
    else if s.feedbacks.any (fun f => f.message = message_id) then
      (.updated, updateFeedback s message_id rating note)
    else
      (.created, createFeedback s message_id rating note)

/-- `post_feedback` when the message id is unknown. -/
theorem post_feedback_none {s : Store} {mid : Nat} (rating : Bool)
    (note : Option String)
    (h : s.messages.find? (fun m => m.id = mid) = none) :
    post_feedback s mid rating note = (.messageMissing, s) := by
  unfold post_feedback
  rw [h]

/-- `post_feedback` when the message is found. -/
theorem post_feedback_some {s : Store} {mid : Nat} {m : Message}
    (rating : Bool) (note : Option String)
    (h : s.messages.find? (fun m2 => m2.id = mid) = some m) :
    post_feedback s mid rating note =
      if m.role ≠ Role.ai then (.badRole, s)
      else if s.feedbacks.any (fun f => f.message = mid) then
        (.updated, updateFeedback s mid rating note)
      else (.created, createFeedback s mid rating note) := by
  unfold post_feedback
  rw [h]

/-- The uniqueness-and-role discipline the schema and the endpoint maintain:
feedback keys are pairwise distinct (the `OneToOneField` of migration
0002_feedback) and every feedback row is attached to an AI-role message. -/
def FeedbackWF (s : Store) : Prop :=
  (s.feedbacks.map (fun f => f.message)).Nodup ∧
  ∀ f ∈ s.feedbacks, ∃ m ∈ s.messages, m.id = f.message ∧ m.role = Role.ai

instance (s : Store) : Decidable (FeedbackWF s) := by
  unfold FeedbackWF; infer_instance

/-! ## `chat/views.py` — `MessageListCreateView.post` (message posting) -/

/-- Python truthiness of the `title` field (`not conv.title`): `None` and
`""` are falsy, every other string is truthy. -/
def titleTruthy : Option String → Bool
  | none => false
  | some t => t ≠ ""

/-- Python whitespace for `str.strip()` (ASCII range). -/
def isPySpace (c : Char) : Bool :=
  c = ' ' || c = '\t' || c = '\n' || c = '\x0d' || c = '\x0b' || c = '\x0c'

/-- `str.strip()` on ASCII text. -/
def pyStrip (cs : List Char) : List Char :=
  ((cs.dropWhile isPySpace).reverse.dropWhile isPySpace).reverse

/-- The auto-generated title of views.py lines 96-98:
`text[:50].strip()`, with `"..."` appended when `len(text) > 50`. -/
def autoTitle (text : String) : String :=
  let t := String.mk (pyStrip (text.data.take 50))
  if text.length > 50 then t ++ "..." else t

/-- Modelled from the spec: the sequence number assigned by `Message.save`
(`chat/models.py`, absent from the sources) — "1 + count of existing messages
in this conversation". -/
def nextSequence (s : Store) (cid : Nat) : Nat :=
  1 + (s.messages.filter (fun m => m.conversation = cid)).length

/-- Modelled from the spec: the auto-generated primary key of a new message
row (a fresh identifier; no claim depends on its value). -/
def nextMessageId (s : Store) : Nat :=
  1 + (s.messages.map (fun m => m.id)).foldr max 0

/-- Persisting the user message (views.py line 78): append a user-role row
with the next sequence number. -/
def withUserMessage (s : Store) (cid : Nat) (text : String) : Store :=
  { s with messages := s.messages ++
      [{ id := nextMessageId s, conversation := cid, role := Role.user,
         text := text, sequence := nextSequence s cid }] }

/-- Persisting the AI reply (views.py line 91): append an ai-role row with
the next sequence number. -/
def withAiMessage (s : Store) (cid : Nat) (reply : String) : Store :=
  { s with messages := s.messages ++
      [{ id := nextMessageId s, conversation := cid, role := Role.ai,
         text := reply, sequence := nextSequence s cid }] }

/-- The body of the successful path of `MessageListCreateView.post` (views.py
lines 78-105) once the conversation `conv` has been fetched: persist the user
message, persist the AI message, then auto-title the conversation from the
posted text when it has no (truthy) title and now contains exactly one
user-role message. -/
def post_message_body (s : Store) (cid : Nat) (conv : Conversation)
    (text reply : String) : Store :=
  if !titleTruthy conv.title &&
      ((withAiMessage (withUserMessage s cid text) cid reply).messages.filter
        (fun m => m.conversation = cid ∧ m.role = Role.user)).length = 1 then
    { withAiMessage (withUserMessage s cid text) cid reply with
      conversations := (withAiMessage (withUserMessage s cid text) cid
        reply).conversations.map (fun c =>
          if c.id = cid then { c with title := some (autoTitle text) }
          else c) }
  else withAiMessage (withUserMessage s cid text) cid reply

/-- `MessageListCreateView.post` (views.py lines 71-105) after validation,
with the generator reply `reply` already obtained; `none` models the 404 of
an unknown conversation. -/
def post_message (s : Store) (cid : Nat) (text reply : String) : Option Store :=
  match s.conversations.find? (fun c => c.id = cid) with
  | none => none
  | some conv => some (post_message_body s cid conv text reply)

/-- `post_message` when the conversation is found. -/
theorem post_message_found {s : Store} {cid : Nat} {conv : Conversation}
    (text reply : String)
    (h : s.conversations.find? (fun c => c.id = cid) = some conv) :
    post_message s cid text reply =
      some (post_message_body s cid conv text reply) := by
  unfold post_message
  rw [h]

/-! ## Lemmas: rounding -/

/-- `round2` stays within an interval with integer endpoints. -/
theorem round2_bounds {q : ℚ} {l h : ℤ} (hlo : (l : ℚ) ≤ q) (hhi : q ≤ (h : ℚ)) :
    (l * 100 : ℤ) ≤ round (q * 100) ∧ round (q * 100) ≤ h * 100 := by
  rw [round_eq]
  constructor
  · rw [Int.le_floor]
    push_cast
    nlinarith
  · rw [Int.floor_le_iff]
    push_cast
    nlinarith

/-- Evaluation rule for `round2` at an explicit value. -/
theorem round2_eval {q : ℚ} {n : ℤ} (h1 : (n : ℚ) ≤ q * 100 + 1/2)
    (h2 : q * 100 + 1/2 < (n : ℚ) + 1) : round2 q = (n : ℚ) / 100 := by
  rw [round2, round_eq]
  congr 1
  exact_mod_cast Int.floor_eq_iff.mpr ⟨h1, h2⟩

/-! ## Lemmas: quality scoring -/

/-- A filter by a stronger predicate never retains more rows. -/
theorem length_filter_implies {α : Type} (l : List α) (p q : α → Bool)
    (h : ∀ a, q a = true → p a = true) :
    (l.filter q).length ≤ (l.filter p).length := by
  induction l with
  | nil => simp
  | cons a l ih =>
    simp only [List.filter_cons]
    cases hq : q a with
    | true => simp [hq, h a hq]; omega
    | false =>
      cases hp : p a with
      | true => simp [hq, hp]; omega
      | false => simp [hq, hp]; omega

/-- `positive_count` counts a sub-filter of `feedback_count`'s rows. -/
theorem positive_count_le_feedback_count (s : Store) (c : Conversation) :
    positive_count s c ≤ feedback_count s c := by
  unfold positive_count feedback_count
  apply length_filter_implies
  intro f hf
  simp only [decide_eq_true_eq] at hf ⊢
  exact hf.1

/-! ## Claim C1 -/

/-- C1: for every conversation with at least one feedback record on its AI
messages, under the invariant `feedback_count ≤ total_ai` the quality score
equals `round((positiveCount/feedbackCount * 0.7 + feedbackCount/totalAI * 0.3)
* 100, 2)` and the defined score lies in `[0, 100]` with exactly two decimal
places (it is `n / 100` for an integer `0 ≤ n ≤ 10000`). -/
theorem c1_quality_score_formula_and_range (s : Store) (c : Conversation)
    (hfb : feedback_count s c ≠ 0)
    (hinv : feedback_count s c ≤ total_ai s c) :
    calculate_quality_score s c =
      some (round2 ((((positive_count s c : ℚ) / (feedback_count s c : ℚ)) * (7/10)
        + ((feedback_count s c : ℚ) / (total_ai s c : ℚ)) * (3/10)) * 100)) ∧
    ∃ n : ℤ, calculate_quality_score s c = some ((n : ℚ) / 100) ∧
      0 ≤ n ∧ n ≤ 10000 := by
  have hai : total_ai s c ≠ 0 := by
    intro h
    rw [h, Nat.le_zero] at hinv
    exact hfb hinv
  have heq : calculate_quality_score s c =
      some (round2 ((((positive_count s c : ℚ) / (feedback_count s c : ℚ)) * (7/10)
        + ((feedback_count s c : ℚ) / (total_ai s c : ℚ)) * (3/10)) * 100)) := by
    unfold calculate_quality_score
    rw [if_neg hai, if_neg hfb]
  refine ⟨heq, round (((((positive_count s c : ℚ) / (feedback_count s c : ℚ)) * (7/10)
        + ((feedback_count s c : ℚ) / (total_ai s c : ℚ)) * (3/10)) * 100) * 100), ?_, ?_, ?_⟩
  · exact heq
  all_goals {
    have hFpos : (0 : ℚ) < (feedback_count s c : ℚ) := by
      exact_mod_cast Nat.pos_of_ne_zero hfb
    have hApos : (0 : ℚ) < (total_ai s c : ℚ) := by
      exact_mod_cast Nat.pos_of_ne_zero hai
    have hr1 : ((positive_count s c : ℚ) / (feedback_count s c : ℚ)) ≤ 1 :=
      (div_le_one hFpos).mpr (by exact_mod_cast positive_count_le_feedback_count s c)
    have hr1' : (0 : ℚ) ≤ (positive_count s c : ℚ) / (feedback_count s c : ℚ) := by positivity
    have hr2 : ((feedback_count s c : ℚ) / (total_ai s c : ℚ)) ≤ 1 :=
      (div_le_one hApos).mpr (by exact_mod_cast hinv)
    have hr2' : (0 : ℚ) ≤ (feedback_count s c : ℚ) / (total_ai s c : ℚ) := by positivity
    have hlo : ((0 : ℤ) : ℚ) ≤ (((positive_count s c : ℚ) / (feedback_count s c : ℚ)) * (7/10)
        + ((feedback_count s c : ℚ) / (total_ai s c : ℚ)) * (3/10)) * 100 := by
      push_cast
      nlinarith
    have hhi : (((positive_count s c : ℚ) / (feedback_count s c : ℚ)) * (7/10)
        + ((feedback_count s c : ℚ) / (total_ai s c : ℚ)) * (3/10)) * 100 ≤ ((100 : ℤ) : ℚ) := by
      push_cast
      nlinarith
    have := round2_bounds hlo hhi
    omega
  }

/-- C1 witness: one conversation with one AI message carrying one positive
feedback; the score is defined and equals `100.00`. -/
theorem c1_witness :
    feedback_count ⟨[⟨1, none⟩], [⟨5, 1, Role.ai, "hi", 1⟩],
        [⟨5, true, none⟩]⟩ ⟨1, none⟩ ≠ 0 ∧
    feedback_count ⟨[⟨1, none⟩], [⟨5, 1, Role.ai, "hi", 1⟩],
        [⟨5, true, none⟩]⟩ ⟨1, none⟩ ≤
      total_ai ⟨[⟨1, none⟩], [⟨5, 1, Role.ai, "hi", 1⟩],
        [⟨5, true, none⟩]⟩ ⟨1, none⟩ ∧
    calculate_quality_score ⟨[⟨1, none⟩], [⟨5, 1, Role.ai, "hi", 1⟩],
        [⟨5, true, none⟩]⟩ ⟨1, none⟩ = some 100 := by
  refine ⟨by decide, by decide, ?_⟩
  have h := (c1_quality_score_formula_and_range
    ⟨[⟨1, none⟩], [⟨5, 1, Role.ai, "hi", 1⟩], [⟨5, true, none⟩]⟩ ⟨1, none⟩
    (by decide) (by decide)).1
  have hp : positive_count ⟨[⟨1, none⟩], [⟨5, 1, Role.ai, "hi", 1⟩],
      [⟨5, true, none⟩]⟩ ⟨1, none⟩ = 1 := by decide
  have hf : feedback_count ⟨[⟨1, none⟩], [⟨5, 1, Role.ai, "hi", 1⟩],
      [⟨5, true, none⟩]⟩ ⟨1, none⟩ = 1 := by decide
  have ha : total_ai ⟨[⟨1, none⟩], [⟨5, 1, Role.ai, "hi", 1⟩],
      [⟨5, true, none⟩]⟩ ⟨1, none⟩ = 1 := by decide
  rw [hp, hf, ha] at h
  rw [h, round2_eval (n := 10000) (by norm_num) (by norm_num)]
  norm_num

/-! ## Claim C2 -/

/-- C2: the quality score is `None` exactly when the conversation has no AI
messages or no feedback on its AI messages; the function is total (never
raises) and the guarded branches mean no division by zero is ever reached. -/
theorem c2_quality_score_none_iff (s : Store) (c : Conversation) :
    calculate_quality_score s c = none ↔
      total_ai s c = 0 ∨ feedback_count s c = 0 := by
  unfold calculate_quality_score
  split_ifs with h1 h2
  · simp [h1]
  · simp [h1, h2]
  · simp [h1, h2]

/-! ## Lemmas: tokenization -/

/-- Whether a text starts with a word character. -/
def headWord : List Char → Bool
  | [] => false
  | c :: _ => isWordChar c

/-- Definitional unfolding of `runsBy` on a cons cell. -/
theorem runsBy_cons (p : Char → Bool) (c : Char) (cs : List Char) :
    runsBy p (c :: cs) =
      if p c then
        match cs.head? with
        | some d =>
          if p d then
            match runsBy p cs with
            | r :: rs => (c :: r) :: rs
            | [] => [[c]]
          else [c] :: runsBy p cs
        | none => [[c]]
      else runsBy p cs := rfl

/-- Unfolding rule for `runsBy` at a separator. -/
theorem runsBy_neg {p : Char → Bool} {c : Char} (h : p c = false) (cs : List Char) :
    runsBy p (c :: cs) = runsBy p cs := by
  rw [runsBy_cons, if_neg (by simp [h])]

/-- Unfolding rule for `runsBy` at a run start: the head run is the maximal
prefix satisfying `p`, the rest is split from the remainder. -/
theorem runsBy_pos {p : Char → Bool} : ∀ (cs : List Char) (c : Char), p c = true →
    runsBy p (c :: cs) = (c :: cs.takeWhile p) :: runsBy p (cs.dropWhile p)
  | [], c, h => by rw [runsBy_cons, if_pos h]; rfl
  | d :: l, c, h => by
    by_cases hd : p d = true
    · have ih := runsBy_pos l d hd
      rw [runsBy_cons, if_pos h]
      simp only [List.head?_cons, hd, if_pos]
      rw [ih]
      rw [List.takeWhile_cons_of_pos hd, List.dropWhile_cons_of_pos hd]
    · have hd' : p d = false := by simp at hd; exact hd
      rw [runsBy_cons, if_pos h]
      simp only [List.head?_cons, hd', Bool.false_eq_true, if_false]
      rw [List.takeWhile_cons_of_neg (by simp [hd']), List.dropWhile_cons_of_neg (by simp [hd'])]

/-- Letters are word characters. -/
theorem az_isWordChar {c : Char} (h : isAz c = true) : isWordChar c = true := by
  unfold isAz at h
  unfold isWordChar
  simp only [Bool.and_eq_true] at h
  simp [h.1, h.2]

/-- When the closing boundary check of the regex succeeds, the maximal word
run from here is exactly the maximal letter run. -/
theorem takeWhile_word_eq_az : ∀ (cs : List Char),
    ((cs.dropWhile isAz).head?.all (fun d => !isWordChar d)) = true →
    cs.takeWhile isWordChar = cs.takeWhile isAz
  | [], _ => rfl
  | x :: l, h => by
    by_cases hx : isAz x
    · rw [List.dropWhile_cons_of_pos hx] at h
      rw [List.takeWhile_cons_of_pos (az_isWordChar hx), List.takeWhile_cons_of_pos hx,
        takeWhile_word_eq_az l h]
    · have hx' : isAz x = false := by simp [hx]
      rw [List.dropWhile_cons_of_neg (by simp [hx'])] at h
      simp only [List.head?_cons, Option.all_some, Bool.not_eq_true'] at h
      rw [List.takeWhile_cons_of_neg (by simp [h]), List.takeWhile_cons_of_neg (by simp [hx'])]

/-- When the closing boundary check fails, the maximal word run from here
contains a non-letter word character. -/
theorem takeWhile_word_not_az : ∀ (cs : List Char) (d : Char),
    (cs.dropWhile isAz).head? = some d → isWordChar d = true →
    (cs.takeWhile isWordChar).all isAz = false
  | [], d, h, _ => by simp at h
  | x :: l, d, h, hw => by
    by_cases hx : isAz x
    · rw [List.dropWhile_cons_of_pos hx] at h
      rw [List.takeWhile_cons_of_pos (az_isWordChar hx)]
      simp only [List.all_cons, Bool.and_eq_false_iff]
      exact Or.inr (takeWhile_word_not_az l d h hw)
    · have hx' : isAz x = false := by simp [hx]
      rw [List.dropWhile_cons_of_neg (by simp [hx'])] at h
      simp only [List.head?_cons, Option.some.injEq] at h
      subst h
      rw [List.takeWhile_cons_of_pos hw]
      simp [hx']

/-- Every element of a `takeWhile` prefix satisfies the predicate. -/
theorem all_takeWhile (p : Char → Bool) : ∀ (l : List Char), (l.takeWhile p).all p = true
  | [] => rfl
  | x :: l => by
    by_cases hx : p x = true
    · rw [List.takeWhile_cons_of_pos hx]
      simp [hx, all_takeWhile p l]
    · rw [List.takeWhile_cons_of_neg (by simp [hx])]
      rfl

/-- Definitional unfolding of the regex scan on a cons cell. -/
theorem findallAux_cons (b : Bool) (c : Char) (cs : List Char) :
    findallAux b (c :: cs) =
      if !b && isAz c && ((cs.dropWhile isAz).head?.all (fun d => !isWordChar d)) then
        (c :: cs.takeWhile isAz) :: findallAux (isWordChar c) cs
      else
        findallAux (isWordChar c) cs := rfl

/-- The text left to split when the scan starts in state `b`: a pending word
run (its start can match no `\b`) is discarded first. -/
def scanRest (b : Bool) (cs : List Char) : List Char :=
  if b then cs.dropWhile isWordChar else cs

/-- `scanRest` at `true`. -/
theorem scanRest_true (cs : List Char) : scanRest true cs = cs.dropWhile isWordChar := rfl

/-- `scanRest` at `false`. -/
theorem scanRest_false (cs : List Char) : scanRest false cs = cs := rfl

/-- Characterisation of the scan of `re.findall(r'\b[a-z]+\b', ·)`: starting
in state `b` ("the previous character is a word character"), the matches are
exactly the maximal word-character runs that consist purely of letters — with
the head run discarded when it would continue a preceding word character. -/
theorem findallAux_spec : ∀ (cs : List Char) (b : Bool),
    findallAux b cs =
      (wordRuns (scanRest b cs)).filter (fun r => r.all isAz)
  | [], b => by cases b <;> rfl
  | c :: cs, b => by
    by_cases hw : isWordChar c = true
    · cases b with
      | true =>
        have ih := findallAux_spec cs true
        rw [findallAux_cons, if_neg (by simp), hw, ih]
        simp only [scanRest, if_pos]
        rw [List.dropWhile_cons_of_pos hw]
      | false =>
        have ih := findallAux_spec cs true
        simp only [scanRest, if_pos] at ih
        rw [findallAux_cons]
        simp only [Bool.not_false, Bool.true_and]
        rw [scanRest_false,
          show wordRuns (c :: cs) = (c :: cs.takeWhile isWordChar) :: runsBy isWordChar (cs.dropWhile isWordChar) from runsBy_pos cs c hw]
        by_cases haz : isAz c = true
        · by_cases hb : ((cs.dropWhile isAz).head?.all (fun d => !isWordChar d)) = true
          · rw [if_pos (by simp [haz, hb]), hw, ih]
            rw [List.filter_cons_of_pos
              (by simp [takeWhile_word_eq_az cs hb, haz, all_takeWhile])]
            rw [takeWhile_word_eq_az cs hb]
            rfl
          · have hb' : ((cs.dropWhile isAz).head?.all (fun d => !isWordChar d)) = false := by
              simp at hb; simp [hb]
            rw [if_neg (by simp [hb']), hw, ih]
            have hhead : ((c :: cs.takeWhile isWordChar).all isAz) = false := by
              cases hcase : (cs.dropWhile isAz).head? with
              | none => rw [hcase] at hb'; simp at hb'
              | some d =>
                rw [hcase] at hb'
                simp only [Option.all_some, Bool.not_eq_false'] at hb'
                simp [takeWhile_word_not_az cs d hcase hb']
            rw [List.filter_cons_of_neg (by simp [hhead])]
            rfl
        · have haz' : isAz c = false := by cases h : isAz c; rfl; exact absurd h haz
          rw [if_neg (by simp [haz']), hw, ih]
          rw [List.filter_cons_of_neg (by simp [haz'])]
          rfl
    · have hw' : isWordChar c = false := by cases h : isWordChar c; rfl; exact absurd h hw
      have haz : isAz c = false := by
        cases h : isAz c
        · rfl
        · exact absurd (az_isWordChar h) hw
      have ih := findallAux_spec cs
      rw [findallAux_cons, if_neg (by simp [haz]), hw']
      cases b with
      | true =>
        rw [ih false, scanRest_false, scanRest_true,
          List.dropWhile_cons_of_neg (by simp [hw']),
          show wordRuns (c :: cs) = wordRuns cs from runsBy_neg hw' cs]
      | false =>
        rw [ih false, scanRest_false, scanRest_false,
          show wordRuns (c :: cs) = wordRuns cs from runsBy_neg hw' cs]

/-! ## Claim C3 -/

/-- C3 counterexample: on the note `"great123"` the spec's tokenizer (every
non-letter character a separator) yields `["great"]`, but the code's
`re.findall(r'\b[a-z]+\b', ...)` yields nothing: `\b` never matches between
a letter and a digit, so a letter run adjacent to a digit is not a candidate
word. -/
theorem c3_counterexample :
    findall_words "great123" ≠ specCandidateWords "great123" ∧
    specCandidateWords "great123" = ["great"] ∧
    findall_words "great123" = [] := by
  decide

/-- C3 amended: the candidate words are exactly the maximal runs of word
characters (letters, digits, underscore) of the lower-cased note that consist
entirely of the letters a-z; punctuation and whitespace act as separators,
but a letter run adjacent to a digit or an underscore is not yielded. -/
theorem c3_findall_words_characterisation (note : String) :
    findall_words note =
      ((wordRuns (lowerStr note).data).filter (fun r => r.all isAz)).map
        (fun r => String.mk r) := by
  unfold findall_words
  rw [findallAux_spec, scanRest_false]

/-! ## Lemmas: the frequency table -/

/-- All surviving words of all notes, in scan order. -/
def allWords (notes : List (Option String)) : List String :=
  (notes.map noteWords).flatten

/-- The keys of `counterAdd`: unchanged on an increment, the new key appended
on a miss. -/
theorem keys_counterAdd (tbl : List (String × Nat)) (w : String) :
    (counterAdd tbl w).map Prod.fst =
      if tbl.any (fun p => p.1 = w) then tbl.map Prod.fst
      else tbl.map Prod.fst ++ [w] := by
  unfold counterAdd
  split
  · simp only [List.map_map]
    congr 1
    funext p
    by_cases h : p.1 = w <;> simp [h]
  · simp

/-- `counterAdd` preserves distinctness of the keys. -/
theorem nodup_keys_counterAdd (tbl : List (String × Nat)) (w : String)
    (h : (tbl.map Prod.fst).Nodup) : ((counterAdd tbl w).map Prod.fst).Nodup := by
  rw [keys_counterAdd]
  split
  · exact h
  · rename_i hany
    have hw : w ∉ tbl.map Prod.fst := by
      intro hmem
      rcases List.mem_map.mp hmem with ⟨p, hp, hpw⟩
      exact hany (List.any_eq_true.mpr ⟨p, hp, decide_eq_true hpw⟩)
    simp [List.nodup_append, h, hw]

/-- Every key of the table after a fold came from the seed table or from the
word stream. -/
theorem mem_keys_foldl : ∀ (ws : List String) (tbl : List (String × Nat))
    (p : String × Nat), p ∈ ws.foldl counterAdd tbl →
    p.1 ∈ tbl.map Prod.fst ∨ p.1 ∈ ws
  | [], tbl, p, h => Or.inl (List.mem_map.mpr ⟨p, h, rfl⟩)
  | w :: ws, tbl, p, h => by
    rcases mem_keys_foldl ws (counterAdd tbl w) p h with h1 | h2
    · rw [keys_counterAdd] at h1
      split at h1
      · exact Or.inl h1
      · rcases List.mem_append.mp h1 with h3 | h3
        · exact Or.inl h3
        · simp only [List.mem_singleton] at h3
          exact Or.inr (h3 ▸ List.mem_cons_self w ws)
    · exact Or.inr (List.mem_cons_of_mem w h2)

/-- The fold preserves distinctness of the keys. -/
theorem nodup_keys_foldl : ∀ (ws : List String) (tbl : List (String × Nat)),
    (tbl.map Prod.fst).Nodup → ((ws.foldl counterAdd tbl).map Prod.fst).Nodup
  | [], _, h => h
  | w :: ws, tbl, h =>
    nodup_keys_foldl ws (counterAdd tbl w) (nodup_keys_counterAdd tbl w h)

/-- The count held by the table at a key (0 when absent). -/
def lookupCount (tbl : List (String × Nat)) (w : String) : Nat :=
  ((tbl.find? (fun p => p.1 = w)).map Prod.snd).getD 0

/-- `find?` skips an entire list in which nothing matches. -/
theorem find?_append_of_none {α : Type} {p : α → Bool} :
    ∀ {l₁ : List α}, l₁.find? p = none → ∀ (l₂ : List α),
    (l₁ ++ l₂).find? p = l₂.find? p
  | [], _, l₂ => rfl
  | a :: t, h, l₂ => by
    cases hpa : p a with
    | true => rw [List.find?_cons_of_pos _ hpa] at h; exact absurd h (by simp)
    | false =>
      rw [List.find?_cons_of_neg _ (by simp [hpa])] at h
      rw [List.cons_append, List.find?_cons_of_neg _ (by simp [hpa])]
      exact find?_append_of_none h l₂

/-- `find?` is decided by the first list when it matches there. -/
theorem find?_append_of_some {α : Type} {p : α → Bool} :
    ∀ {l₁ : List α} {a : α}, l₁.find? p = some a → ∀ (l₂ : List α),
    (l₁ ++ l₂).find? p = some a
  | [], a, h, _ => by simp at h
  | b :: t, a, h, l₂ => by
    cases hpb : p b with
    | true =>
      rw [List.find?_cons_of_pos _ hpb] at h
      rw [List.cons_append, List.find?_cons_of_pos _ hpb]
      exact h
    | false =>
      rw [List.find?_cons_of_neg _ (by simp [hpb])] at h
      rw [List.cons_append, List.find?_cons_of_neg _ (by simp [hpb])]
      exact find?_append_of_some h l₂

/-- The in-place increment moves `find?` at the incremented key through the
update. -/
theorem find?_update (w : String) : ∀ (tbl : List (String × Nat)),
    (tbl.map (fun p => if p.1 = w then (p.1, p.2 + 1) else p)).find?
      (fun p => p.1 = w) =
      (tbl.find? (fun p => p.1 = w)).map (fun p => (p.1, p.2 + 1))
  | [] => rfl
  | p :: t => by
    by_cases hp : p.1 = w
    · simp [hp]
    · simp [hp, find?_update w t]

/-- The in-place increment is invisible to `find?` at any other key. -/
theorem find?_update_other (w v : String) (hvw : v ≠ w) :
    ∀ (tbl : List (String × Nat)),
    (tbl.map (fun p => if p.1 = w then (p.1, p.2 + 1) else p)).find?
      (fun p => p.1 = v) = tbl.find? (fun p => p.1 = v)
  | [] => rfl
  | p :: t => by
    have hwv : ¬(w = v) := fun he => hvw he.symm
    by_cases hp : p.1 = v
    · have hw : ¬(p.1 = w) := by rw [hp]; exact hvw
      simp only [List.map_cons, if_neg hw, List.find?, decide_eq_true hp]
    · by_cases hw : p.1 = w <;>
        simp [hp, hw, hwv, find?_update_other w v hvw t]

/-- `counterAdd` increments the stored count of its word. -/
theorem lookup_counterAdd_same (tbl : List (String × Nat)) (w : String) :
    lookupCount (counterAdd tbl w) w = lookupCount tbl w + 1 := by
  unfold counterAdd
  split
  · rename_i hany
    unfold lookupCount
    rw [find?_update]
    rcases hfind : tbl.find? (fun p => p.1 = w) with _ | q
    · rcases List.any_eq_true.mp hany with ⟨q, hq, hqw⟩
      exact absurd hqw (List.find?_eq_none.mp hfind q hq)
    · simp [hfind]
  · rename_i hany
    unfold lookupCount
    have hnone : tbl.find? (fun p => p.1 = w) = none :=
      List.find?_eq_none.mpr (fun q hq hqw =>
        hany (List.any_eq_true.mpr ⟨q, hq, hqw⟩))
    rw [find?_append_of_none hnone, hnone]
    simp

/-- `counterAdd` leaves every other stored count unchanged. -/
theorem lookup_counterAdd_other (tbl : List (String × Nat)) (w v : String)
    (h : v ≠ w) : lookupCount (counterAdd tbl w) v = lookupCount tbl v := by
  unfold counterAdd
  split
  · unfold lookupCount
    rw [find?_update_other w v h]
  · unfold lookupCount
    rcases hfind : tbl.find? (fun p => p.1 = v) with _ | q
    · rw [find?_append_of_none hfind, hfind]
      have hwv : ¬(w = v) := fun he => h he.symm
      simp [hwv]
    · rw [find?_append_of_some hfind, hfind]

/-- In a table with distinct keys, the stored pair at a key carries exactly
`lookupCount`. -/
theorem snd_eq_lookupCount : ∀ (tbl : List (String × Nat)),
    (tbl.map Prod.fst).Nodup → ∀ p ∈ tbl, p.2 = lookupCount tbl p.1
  | [], _, p, hp => absurd hp (List.not_mem_nil p)
  | q :: t, h, p, hp => by
    rw [List.map_cons, List.nodup_cons] at h
    rcases List.mem_cons.mp hp with rfl | hpt
    · unfold lookupCount
      simp
    · have hq : ¬(q.1 = p.1) := by
        intro he
        exact h.1 (he ▸ List.mem_map.mpr ⟨p, hpt, rfl⟩)
      have ih := snd_eq_lookupCount t h.2 p hpt
      unfold lookupCount at ih ⊢
      simp [hq, ih]

/-- Folding a word stream into the table adds the stream multiplicity of each
word to its stored count. -/
theorem lookupCount_foldl : ∀ (ws : List String) (tbl : List (String × Nat))
    (w : String), lookupCount (ws.foldl counterAdd tbl) w =
      lookupCount tbl w + ws.count w
  | [], tbl, w => by simp
  | v :: ws, tbl, w => by
    rw [List.foldl_cons, lookupCount_foldl ws (counterAdd tbl v) w]
    by_cases hv : v = w
    · subst hv
      rw [lookup_counterAdd_same, List.count_cons_self]
      omega
    · rw [lookup_counterAdd_other tbl v w (fun he => hv he.symm),
        List.count_cons_of_ne (fun he => hv (by exact he.symm)) ws]

/-- The per-note loop builds the same table as one pass over the
concatenated word stream. -/
theorem themeTable_eq_foldl : ∀ (notes : List (Option String))
    (tbl : List (String × Nat)),
    notes.foldl (fun t note => (noteWords note).foldl counterAdd t) tbl =
      ((notes.map noteWords).flatten).foldl counterAdd tbl
  | [], _ => rfl
  | note :: notes, tbl => by
    rw [List.foldl_cons, themeTable_eq_foldl notes, List.map_cons,
      List.flatten_cons, List.foldl_append]

/-- `themeTable` over the whole stream. -/
theorem themeTable_eq (notes : List (Option String)) :
    themeTable notes = (allWords notes).foldl counterAdd [] :=
  themeTable_eq_foldl notes []

/-! ## Lemmas: `most_common` (the stable descending sort) -/

/-- Stability of the insertion step at the level of count classes: the
entries of a fixed count are the old ones with the new entry in front when it
has that count. -/
theorem filter_orderedInsert (a : String × Nat) (c : Nat) :
    ∀ (tbl : List (String × Nat)),
    (List.orderedInsert countGE a tbl).filter (fun p => p.2 = c) =
      if a.2 = c then a :: tbl.filter (fun p => p.2 = c)
      else tbl.filter (fun p => p.2 = c)
  | [] => by
    by_cases ha : a.2 = c <;> simp [List.orderedInsert, ha]
  | b :: t => by
    rw [List.orderedInsert]
    by_cases hab : countGE a b
    · rw [if_pos hab]
      by_cases ha : a.2 = c <;> simp [ha]
    · rw [if_neg hab]
      have hb : a.2 < b.2 := by
        unfold countGE at hab
        omega
      by_cases ha : a.2 = c
      · have hbc : ¬(b.2 = c) := by omega
        rw [List.filter_cons_of_neg (by simp [hbc]),
          List.filter_cons_of_neg (by simp [hbc]),
          filter_orderedInsert a c t]
      · by_cases hbc : b.2 = c
        · rw [List.filter_cons_of_pos (by simp [hbc]),
            List.filter_cons_of_pos (by simp [hbc]),
            filter_orderedInsert a c t, if_neg ha, if_neg ha]
        · rw [List.filter_cons_of_neg (by simp [hbc]),
            List.filter_cons_of_neg (by simp [hbc]),
            filter_orderedInsert a c t, if_neg ha]

/-- Stability of the whole sort: within one count class the sorted table
lists exactly the original entries in their original order. -/
theorem filter_insertionSort (c : Nat) : ∀ (tbl : List (String × Nat)),
    (tbl.insertionSort countGE).filter (fun p => p.2 = c) =
      tbl.filter (fun p => p.2 = c)
  | [] => rfl
  | a :: t => by
    rw [List.insertionSort, filter_orderedInsert a c, filter_insertionSort c t]
    by_cases ha : a.2 = c
    · rw [if_pos ha, List.filter_cons_of_pos (by simp [ha])]
    · rw [if_neg ha, List.filter_cons_of_neg (by simp [ha])]

/-- A `take` prefix filters to a prefix of the full filtered list. -/
theorem filter_take_prefix {α : Type} (p : α → Bool) (l : List α) (n : Nat) :
    (l.take n).filter p <+: l.filter p :=
  ⟨(l.drop n).filter p, by rw [← List.filter_append, List.take_append_drop]⟩

/-- Every word of the stream survived the stop-word/length filter. -/
theorem keepWord_of_mem_allWords (notes : List (Option String)) (w : String)
    (h : w ∈ allWords notes) : keepWord w = true := by
  unfold allWords at h
  rcases List.mem_flatten.mp h with ⟨l, hl, hwl⟩
  rcases List.mem_map.mp hl with ⟨note, hnote, rfl⟩
  cases note with
  | none => simp [noteWords] at hwl
  | some text =>
    simp only [noteWords] at hwl
    by_cases ht : text = ""
    · rw [if_pos ht] at hwl
      simp at hwl
    · rw [if_neg ht] at hwl
      exact List.of_mem_filter hwl

/-! ## Claim C4 -/

/-- C4: for every input and every `topN`, no stop word and no word of length
`≤ 3` appears in the theme output; the output keys are pairwise distinct and
each carries the total multiplicity of that (lower-cased) word over the whole
note stream, so case variants collapse into a single summed entry; the output
never exceeds `topN` entries; and empty input, or input in which no word
survives the filter, yields an empty output. -/
theorem c4_extract_themes_properties (notes : List (Option String)) (top_n : Nat) :
    (∀ q ∈ extract_feedback_themes notes top_n,
        q.1 ∉ STOP_WORDS ∧ 3 < q.1.length ∧ q.2 = (allWords notes).count q.1) ∧
    ((extract_feedback_themes notes top_n).map Prod.fst).Nodup ∧
    (extract_feedback_themes notes top_n).length ≤ top_n ∧
    (notes = [] → extract_feedback_themes notes top_n = []) ∧
    (allWords notes = [] → extract_feedback_themes notes top_n = []) := by
  have htbl_nodup : ((themeTable notes).map Prod.fst).Nodup := by
    rw [themeTable_eq]
    exact nodup_keys_foldl _ [] (by simp)
  have hmem_tbl : ∀ q ∈ extract_feedback_themes notes top_n,
      q ∈ themeTable notes := by
    intro q hq
    unfold extract_feedback_themes most_common at hq
    exact (List.mem_insertionSort countGE).mp (List.mem_of_mem_take hq)
  refine ⟨?_, ?_, ?_, ?_, ?_⟩
  · intro q hq
    have hq' := hmem_tbl q hq
    have hkey : q.1 ∈ allWords notes := by
      have := mem_keys_foldl (allWords notes) [] q
        (by rw [← themeTable_eq]; exact hq')
      simpa using this
    have hkeep := keepWord_of_mem_allWords notes q.1 hkey
    unfold keepWord at hkeep
    rw [Bool.and_eq_true] at hkeep
    refine ⟨?_, of_decide_eq_true hkeep.2, ?_⟩
    · have h1 := hkeep.1
      simp only [Bool.not_eq_true'] at h1
      intro hmem
      have h2 := List.elem_eq_true_of_mem hmem
      rw [show STOP_WORDS.elem q.1 = STOP_WORDS.contains q.1 from rfl, h1] at h2
      exact Bool.false_ne_true h2
    · have hcount := snd_eq_lookupCount (themeTable notes) htbl_nodup q hq'
      rw [themeTable_eq, lookupCount_foldl] at hcount
      simpa [lookupCount] using hcount
  · have hperm : List.Perm (((themeTable notes).insertionSort countGE).map Prod.fst)
        ((themeTable notes).map Prod.fst) :=
      (List.perm_insertionSort countGE _).map Prod.fst
    have hnodup := hperm.nodup_iff.mpr htbl_nodup
    unfold extract_feedback_themes most_common
    rw [List.map_take]
    exact (List.take_sublist _ _).nodup hnodup
  · unfold extract_feedback_themes most_common
    exact List.length_take_le _ _
  · intro h
    subst h
    simp [extract_feedback_themes, most_common, themeTable]
  · intro h
    unfold extract_feedback_themes
    rw [themeTable_eq, h]
    simp [most_common]

/-! ## Claim C5 -/

/-- C5: the theme output is ordered by descending count, and within each
count class the entries appear in exactly the order of the frequency table
built by scanning the notes in input order (first-seen order), of which they
form a prefix. -/
theorem c5_extract_themes_order (notes : List (Option String)) (top_n : Nat) :
    (extract_feedback_themes notes top_n).Pairwise (fun a b => b.2 ≤ a.2) ∧
    ∀ c : Nat, (extract_feedback_themes notes top_n).filter (fun q => q.2 = c) <+:
      (themeTable notes).filter (fun q => q.2 = c) := by
  constructor
  · have hs := List.sorted_insertionSort countGE (themeTable notes)
    unfold extract_feedback_themes most_common
    exact ((hs.sublist (List.take_sublist _ _)).imp (fun h => h))
  · intro c
    unfold extract_feedback_themes most_common
    have h1 := filter_take_prefix (fun q => decide (q.2 = c))
      ((themeTable notes).insertionSort countGE) top_n
    rw [filter_insertionSort] at h1
    exact h1

/-- C4 witness: three case variants of "python" in one note collapse to the
single entry `("python", 3)`, which survives the filters and carries the
summed count. -/
theorem c4_witness :
    ("python", 3) ∈ extract_feedback_themes [some "Python PYTHON python"] 10 ∧
    (("python", 3).1 ∉ STOP_WORDS ∧ 3 < ("python", 3).1.length ∧
      ("python", 3).2 = (allWords [some "Python PYTHON python"]).count ("python", 3).1) :=
  ⟨by decide,
   (c4_extract_themes_properties [some "Python PYTHON python"] 10).1 ("python", 3)
     (by decide)⟩

/-! ## Claim C6 -/

/-- A store with 3 AI messages, 3 feedback records, 2 of them positive. -/
def c6Store : Store :=
  { conversations := [⟨1, none⟩],
    messages := [⟨1, 1, Role.ai, "a", 1⟩, ⟨2, 1, Role.ai, "b", 2⟩,
                 ⟨3, 1, Role.ai, "c", 3⟩],
    feedbacks := [⟨1, true, none⟩, ⟨2, true, none⟩, ⟨3, false, none⟩] }

/-- C6: in every insights report, `satisfaction_rate` is
`positive_feedback/total_feedback*100` rounded to two decimals and `0` when
there is no feedback, and `feedback_rate` is
`total_feedback/total_ai_messages*100` rounded to two decimals and `0` when
there are no AI messages; on 2 positive of 3 feedback over 3 AI messages the
rates are `66.67` and `100.0`. -/
theorem c6_insights_rates (s : Store) (inc : Bool)
    (gen : String → Except String String) :
    ((buildInsights s inc gen).1.satisfaction_rate =
      if totalFeedback s = 0 then 0
      else round2 ((positiveFeedback s : ℚ) / (totalFeedback s : ℚ) * 100)) ∧
    ((buildInsights s inc gen).1.feedback_rate =
      if totalAIMessages s = 0 then 0
      else round2 ((totalFeedback s : ℚ) / (totalAIMessages s : ℚ) * 100)) ∧
    (buildInsights c6Store inc gen).1.satisfaction_rate = 6667 / 100 ∧
    (buildInsights c6Store inc gen).1.feedback_rate = 100 := by
  have hrate : ∀ s2 : Store, (buildInsights s2 inc gen).1.satisfaction_rate =
      if totalFeedback s2 = 0 then 0
      else round2 ((positiveFeedback s2 : ℚ) / (totalFeedback s2 : ℚ) * 100) := by
    intro s2
    show round2 (satisfaction_rate s2) = _
    unfold satisfaction_rate
    by_cases h : totalFeedback s2 = 0
    · rw [if_neg (by omega), if_pos h]
      simp [round2]
    · rw [if_pos (Nat.pos_of_ne_zero h), if_neg h]
  have hfrate : ∀ s2 : Store, (buildInsights s2 inc gen).1.feedback_rate =
      if totalAIMessages s2 = 0 then 0
      else round2 ((totalFeedback s2 : ℚ) / (totalAIMessages s2 : ℚ) * 100) := by
    intro s2
    show round2 (feedback_rate s2) = _
    unfold feedback_rate
    by_cases h : totalAIMessages s2 = 0
    · rw [if_neg (by omega), if_pos h]
      simp [round2]
    · rw [if_pos (Nat.pos_of_ne_zero h), if_neg h]
  refine ⟨hrate s, hfrate s, ?_, ?_⟩
  · rw [hrate c6Store, if_neg (by decide),
      show positiveFeedback c6Store = 2 from rfl,
      show totalFeedback c6Store = 3 from rfl]
    rw [show ((2 : ℕ) : ℚ) / ((3 : ℕ) : ℚ) * 100 = 200/3 by norm_num]
    rw [round2_eval (n := 6667) (by norm_num) (by norm_num)]
    norm_num
  · rw [hfrate c6Store, if_neg (by decide),
      show totalFeedback c6Store = 3 from rfl,
      show totalAIMessages c6Store = 3 from rfl]
    rw [show ((3 : ℕ) : ℚ) / ((3 : ℕ) : ℚ) * 100 = 100 by norm_num]
    rw [round2_eval (n := 10000) (by norm_num) (by norm_num)]
    norm_num

/-! ## Claim C7 -/

/-- The empty store: no conversations, no messages, no feedback. -/
def emptyStore : Store := ⟨[], [], []⟩

/-- C7: on an empty store the insights build is total (the embedding is a
total function, mirroring that the handler never raises) and returns a report
whose usage and feedback counts are all `0`, whose themes list is empty and
whose average quality score is `null` — for any `include_summary` flag and
any generator behaviour. -/
theorem c7_empty_insights (inc : Bool) (gen : String → Except String String) :
    (buildInsights emptyStore inc gen).1.total_conversations = 0 ∧
    (buildInsights emptyStore inc gen).1.total_messages = 0 ∧
    (buildInsights emptyStore inc gen).1.total_user_messages = 0 ∧
    (buildInsights emptyStore inc gen).1.total_ai_messages = 0 ∧
    (buildInsights emptyStore inc gen).1.total_feedback = 0 ∧
    (buildInsights emptyStore inc gen).1.positive_feedback = 0 ∧
    (buildInsights emptyStore inc gen).1.negative_feedback = 0 ∧
    (buildInsights emptyStore inc gen).1.themes = [] ∧
    (buildInsights emptyStore inc gen).1.average = none :=
  ⟨rfl, rfl, rfl, rfl, rfl, rfl, rfl, rfl, rfl⟩

/-! ## Claim C8 -/

/-- C8: the generator is invoked exactly once when `include_summary` is true
and never when it is false; and when it is invoked and fails, the summary is
`null` and the rest of the report is the same report the summary-less build
returns — the failure never escapes. -/
theorem c8_summary_best_effort (s : Store) (gen : String → Except String String) :
    (buildInsights s false gen).2 = 0 ∧
    (buildInsights s true gen).2 = 1 ∧
    ∀ e, gen (insightsPrompt s) = .error e →
      (buildInsights s true gen).1.summary = none ∧
      (buildInsights s true gen).1 = (buildInsights s false gen).1 := by
  refine ⟨rfl, ?_, ?_⟩
  · unfold buildInsights
    cases h : gen (insightsPrompt s) <;> simp [h]
  · intro e he
    unfold buildInsights
    rw [he]
    exact ⟨rfl, rfl⟩

/-- A generator that always fails. -/
def c8Gen : String → Except String String := fun _ => .error "boom"

/-- C8 witness: with an always-failing generator on the empty store, the
generator is consulted once, the summary is `null`, and the report equals the
summary-less one. -/
theorem c8_witness :
    c8Gen (insightsPrompt emptyStore) = .error "boom" ∧
    (buildInsights emptyStore true c8Gen).1.summary = none ∧
    (buildInsights emptyStore true c8Gen).1 =
      (buildInsights emptyStore false c8Gen).1 :=
  ⟨rfl, (c8_summary_best_effort emptyStore c8Gen).2.2 "boom" rfl⟩

/-! ## Claim C9 -/

/-- C9: the feedback-submission endpoint rejects feedback on a non-AI message
with an error, leaving the store untouched; it preserves the discipline that
every feedback row is attached to an AI message and that feedback keys are
pairwise distinct (at most one feedback per message, ever); and when a
feedback row for the message already exists it updates in place — the table
does not grow. -/
theorem c9_feedback_upsert (s : Store) (mid : Nat) (rating : Bool)
    (note : Option String) :
    (∀ m, s.messages.find? (fun m2 => m2.id = mid) = some m →
      m.role ≠ Role.ai →
      post_feedback s mid rating note = (.badRole, s)) ∧
    (FeedbackWF s → FeedbackWF (post_feedback s mid rating note).2) ∧
    (s.feedbacks.any (fun f => f.message = mid) = true →
      (post_feedback s mid rating note).2.feedbacks.length =
        s.feedbacks.length) := by
  rcases hfind : s.messages.find? (fun m2 => m2.id = mid) with _ | m
  · rw [post_feedback_none rating note hfind]
    exact ⟨fun m hm => by rw [hfind] at hm; exact absurd hm (by simp),
           fun h => h, fun _ => rfl⟩
  · rw [post_feedback_some rating note hfind]
    by_cases hrole : m.role = Role.ai
    · rw [if_neg (by simp [hrole])]
      by_cases hany : s.feedbacks.any (fun f => f.message = mid) = true
      · rw [if_pos hany]
        refine ⟨?_, ?_, ?_⟩
        · intro m' hm' hrole'
          rw [hfind, Option.some_inj] at hm'
          exact absurd (hm' ▸ hrole) hrole'
        · rintro ⟨hnodup, hatt⟩
          unfold updateFeedback
          constructor
          · have hkeys : (s.feedbacks.map (fun f =>
                if f.message = mid then
                  { f with rating := rating,
                           note := match note with
                                   | some n => some n
                                   | none => f.note }
                else f)).map (fun f => f.message) =
                s.feedbacks.map (fun f => f.message) := by
              rw [List.map_map]
              apply List.map_congr_left
              intro f _
              by_cases hf : f.message = mid <;> simp [hf]
            simpa [hkeys] using hnodup
          · intro f hf
            rcases List.mem_map.mp hf with ⟨f0, hf0, rfl⟩
            rcases hatt f0 hf0 with ⟨m0, hm0, hid, hrole0⟩
            by_cases hf0m : f0.message = mid <;>
              exact ⟨m0, hm0, by simp [hf0m, hid], hrole0⟩
        · intro _
          simp [updateFeedback]
      · rw [if_neg hany]
        refine ⟨?_, ?_, ?_⟩
        · intro m' hm' hrole'
          rw [hfind, Option.some_inj] at hm'
          exact absurd (hm' ▸ hrole) hrole'
        · rintro ⟨hnodup, hatt⟩
          unfold createFeedback
          have hmid : mid ∉ s.feedbacks.map (fun f => f.message) := by
            intro hmem
            rcases List.mem_map.mp hmem with ⟨f0, hf0, hf0m⟩
            exact hany (List.any_eq_true.mpr ⟨f0, hf0, decide_eq_true hf0m⟩)
          constructor
          · rw [List.map_append]
            simp only [List.map_cons, List.map_nil]
            rw [List.nodup_append]
            refine ⟨hnodup, List.nodup_singleton mid, ?_⟩
            intro a ha hb
            simp only [List.mem_singleton] at hb
            exact hmid (hb ▸ ha)
          · intro f hf
            rcases List.mem_append.mp hf with hf1 | hf2
            · exact hatt f hf1
            · simp only [List.mem_singleton] at hf2
              refine ⟨m, List.mem_of_find?_eq_some hfind, ?_, hrole⟩
              have := List.find?_some hfind
              rw [hf2]
              exact of_decide_eq_true this
        · intro h
          exact absurd h hany
    · rw [if_pos hrole]
      exact ⟨fun m' hm' hr => rfl, fun h => h, fun _ => rfl⟩

/-- A store for the C9 witness: one AI message, no feedback yet. -/
def c9Store : Store :=
  { conversations := [⟨1, none⟩],
    messages := [⟨5, 1, Role.ai, "hi", 1⟩, ⟨6, 1, Role.user, "q", 2⟩],
    feedbacks := [] }

/-- C9 witness: submitting feedback on the AI message of a well-formed store
yields a well-formed store again, and feedback on the user message is
rejected with the store unchanged. -/
theorem c9_witness :
    FeedbackWF c9Store ∧
    FeedbackWF (post_feedback c9Store 5 true (some "nice")).2 ∧
    (c9Store.messages.find? (fun m2 => m2.id = 6) =
      some ⟨6, 1, Role.user, "q", 2⟩) ∧
    post_feedback c9Store 6 true none = (.badRole, c9Store) :=
  ⟨by decide,
   (c9_feedback_upsert c9Store 5 true (some "nice")).2.1 (by decide),
   by decide,
   (c9_feedback_upsert c9Store 6 true none).1 ⟨6, 1, Role.user, "q", 2⟩
     (by decide) (by decide)⟩

/-! ## Claim C10 -/

/-- `find?` at a key commutes with the title update, which preserves keys. -/
theorem find?_title_update (cid : Nat) (t : String) : ∀ (l : List Conversation),
    (l.map (fun c => if c.id = cid then { c with title := some t } else c)).find?
      (fun c => c.id = cid) =
      (l.find? (fun c => c.id = cid)).map (fun c => { c with title := some t })
  | [] => rfl
  | c :: l => by
    by_cases hc : c.id = cid
    · simp [hc]
    · simp [hc, find?_title_update cid t l]

/-- The messages of the posted store do not depend on the title branch. -/
theorem post_message_body_messages (s : Store) (cid : Nat)
    (conv : Conversation) (text reply : String) :
    (post_message_body s cid conv text reply).messages =
      (withAiMessage (withUserMessage s cid text) cid reply).messages := by
  unfold post_message_body
  split <;> rfl

/-- C10: a successful message post on a conversation without a (truthy) title
that afterwards contains exactly one user message sets the title to the first
50 characters of the posted text, stripped, with `"..."` appended when the
text is longer than 50 characters; a conversation that already has a title
keeps its conversations row unchanged. -/
theorem c10_auto_title (s : Store) (cid : Nat) (text reply : String)
    (conv : Conversation) (s2 : Store)
    (hfind : s.conversations.find? (fun c => c.id = cid) = some conv)
    (hpost : post_message s cid text reply = some s2) :
    (titleTruthy conv.title = false →
      (s2.messages.filter (fun m => m.conversation = cid ∧
        m.role = Role.user)).length = 1 →
      (s2.conversations.find? (fun c => c.id = cid)).map Conversation.title =
        some (some (autoTitle text))) ∧
    (titleTruthy conv.title = true → s2.conversations = s.conversations) := by
  rw [post_message_found text reply hfind, Option.some_inj] at hpost
  subst hpost
  constructor
  · intro htitle hcount
    rw [post_message_body_messages] at hcount
    have hbody : post_message_body s cid conv text reply =
        { withAiMessage (withUserMessage s cid text) cid reply with
          conversations := (withAiMessage (withUserMessage s cid text) cid
            reply).conversations.map (fun c =>
              if c.id = cid then { c with title := some (autoTitle text) }
              else c) } := by
      unfold post_message_body
      rw [if_pos ?hc]
      case hc =>
        rw [htitle]
        simp only [Bool.not_false, Bool.true_and]
        exact decide_eq_true hcount
    rw [hbody]
    have hconvs : (withAiMessage (withUserMessage s cid text) cid
        reply).conversations = s.conversations := rfl
    show ((s.conversations.map (fun c =>
      if c.id = cid then { c with title := some (autoTitle text) }
      else c)).find? (fun c => c.id = cid)).map Conversation.title =
      some (some (autoTitle text))
    rw [find?_title_update cid (autoTitle text) s.conversations, hfind]
    rfl
  · intro htitle
    have hbody : post_message_body s cid conv text reply =
        withAiMessage (withUserMessage s cid text) cid reply := by
      unfold post_message_body
      rw [if_neg (by simp [htitle])]
    rw [hbody]
    rfl

/-- A store for the C10 witness: one untitled conversation, no messages. -/
def c10Store : Store :=
  { conversations := [⟨1, none⟩], messages := [], feedbacks := [] }

/-- C10 witness: posting `"hello"` to an untitled empty conversation sets the
title to `"hello"`. -/
theorem c10_witness :
    c10Store.conversations.find? (fun c => c.id = 1) =
      some (⟨1, none⟩ : Conversation) ∧
    post_message c10Store 1 "hello" "hi" =
      some (post_message_body c10Store 1 ⟨1, none⟩ "hello" "hi") ∧
    titleTruthy (⟨1, none⟩ : Conversation).title = false ∧
    ((post_message_body c10Store 1 ⟨1, none⟩ "hello" "hi").messages.filter
      (fun m => m.conversation = 1 ∧ m.role = Role.user)).length = 1 ∧
    ((post_message_body c10Store 1 ⟨1, none⟩ "hello" "hi").conversations.find?
      (fun c => c.id = 1)).map Conversation.title =
        some (some (autoTitle "hello")) :=
  ⟨by decide, by decide, by decide, by decide,
   (c10_auto_title c10Store 1 "hello" "hi" ⟨1, none⟩
      (post_message_body c10Store 1 ⟨1, none⟩ "hello" "hi")
      (by decide) (by decide)).1 (by decide) (by decide)⟩
